import Mathlib

/-!
Verification of the `doct` library: an immutable, attribute-accessible
`Document` type (a `dict` subclass storing its name under the reserved key
`_name`) together with its recursive text renderer `vstr`, the helper
`ref_doc_to_uid`, and the forgiving timestamp formatter `pretty_print_time`.

The embedding models Python values as the inductive type `PVal`; a `dict` is
an association list with insertion-order overwrite semantics (`rawSetItem`),
first-match lookup (`rawLookup`) and key removal (`rawEraseKey`).  External
collaborators (Python's builtin `str`, the `float` string parser,
`prettytable`, `humanize`, `datetime`) are taken as parameters of the
functions that invoke them; everything else follows `doct.py` line by line.
-/

set_option autoImplicit false

/-- Python values that can occur in a document payload: `None`, integers,
strings, lists, plain dicts and `Document`s (both are mappings; a `Document`
is distinguished because its iteration methods are overridden). -/
inductive PVal where
  | pyNone
  | int (n : Int)
  | str (s : String)
  | list (elems : List PVal)
  | dict (entries : List (String × PVal))
  | doc (entries : List (String × PVal))

/-- The raw backing store of a Python dict: an association list in insertion
order.  Well-formed stores have pairwise distinct keys. -/
abbrev Store := List (String × PVal)

/-- First-match lookup, the semantics of `d[key]` on a store with distinct
keys. -/
def rawLookup {α : Type} : List (String × α) → String → Option α
  | [], _ => Option.none
  | (k, v) :: rest, key => if k == key then some v else rawLookup rest key

/-- `key in d` on the raw store (`dict.__contains__`, which `Document` does
not override). -/
def rawContains {α : Type} (s : List (String × α)) (key : String) : Bool :=
  (rawLookup s key).isSome

/-- `d[key] = val` on the raw store: overwrite in place if the key is
present, append otherwise (Python dicts keep the original key position). -/
def rawSetItem {α : Type} : List (String × α) → String → α → List (String × α)
  | [], key, val => [(key, val)]
  | (k, v) :: rest, key, val =>
    if k == key then (k, val) :: rest else (k, v) :: rawSetItem rest key val

/-- `d.pop(key, None)` on the raw store: remove the (unique, in a well-formed
store) entry for `key` if present. -/
def rawEraseKey {α : Type} : List (String × α) → String → List (String × α)
  | [], _ => []
  | (k, v) :: rest, key => if k == key then rest else (k, v) :: rawEraseKey rest key

/-- `dict(pairs)`: fold the pairs into an empty dict in order, later entries
overwriting earlier ones. -/
def fromPairs {α : Type} (ps : List (String × α)) : List (String × α) :=
  ps.foldl (fun s p => rawSetItem s p.1 p.2) []

/-- The keys of a store, in order. -/
def storeKeys {α : Type} (s : List (String × α)) : List String :=
  s.map Prod.fst

/-- `k.startswith('_')` for the one-character sentinel: first code point is
an underscore. -/
def underscored (k : String) : Bool :=
  match k.toList with
  | [] => false
  | c :: _ => c == Char.ofNat 95

/-- The Python exceptions that the modelled code can raise. `outOfFuel` is an
artefact of the embedding: the recursive renderer is given explicit fuel, and
every theorem supplies enough of it. -/
inductive PyErr where
  | documentIsReadOnly
  | keyError
  | attributeError
  | typeError
  | indexError
  | outOfFuel
deriving DecidableEq

/-- `doct.Document`: a dict subclass.  `store` is the raw underlying dict
contents, including the reserved `_name` entry. -/
structure Document where
  store : Store

/-- `Document.__init__(name, *args)`: copy the initial entries with the dict
constructor, then insert the reserved name field (overwriting any `_name`
supplied by the caller). -/
def Document.new (name : PVal) (init : List (String × PVal)) : Document :=
  ⟨rawSetItem (fromPairs init) ("_name") name⟩

/-- `__init__` ends with `__setattr__('__dict__', self)`, so the instance
`__dict__` of every constructed `Document` is the document itself — always a
`Document`. -/
def Document.dictIsDocument (_ : Document) : Bool :=
  true

/-- `Document.__setitem__`: raises `DocumentIsReadOnly` when `self.__dict__`
is a `Document` (which it always is for a constructed document); the
unreachable else-branch would write to the raw store.  The returned document
is the post-call state. -/
def Document.setItemOp (d : Document) (key : String) (value : PVal) :
    Option PyErr × Document :=
  if d.dictIsDocument then (some PyErr.documentIsReadOnly, d)
  else (Option.none, ⟨rawSetItem d.store key value⟩)

/-- `Document.__setattr__`: raises `DocumentIsReadOnly` unconditionally. -/
def Document.setAttrOp (d : Document) (_key : String) (_value : PVal) :
    Option PyErr × Document :=
  (some PyErr.documentIsReadOnly, d)

/-- `Document.__delattr__`: raises `DocumentIsReadOnly` unconditionally. -/
def Document.delAttrOp (d : Document) (_key : String) : Option PyErr × Document :=
  (some PyErr.documentIsReadOnly, d)

/-- `Document.__delitem__`: raises `DocumentIsReadOnly` unconditionally. -/
def Document.delItemOp (d : Document) (_key : String) : Option PyErr × Document :=
  (some PyErr.documentIsReadOnly, d)

/-- `Document.update(*args, **kwargs)`: raises `DocumentIsReadOnly`
unconditionally. -/
def Document.updateOp (d : Document) (_other : List (String × PVal)) :
    Option PyErr × Document :=
  (some PyErr.documentIsReadOnly, d)

/-- `Document.pop(key, d=None)`: raises `DocumentIsReadOnly`
unconditionally. -/
def Document.popOp (d : Document) (_key : String) (_default : Option PVal) :
    Option PyErr × Document :=
  (some PyErr.documentIsReadOnly, d)

/-- `d[key]`: the inherited `dict.__getitem__`, a raw lookup (the reserved
`_name` key is retrievable this way); `KeyError` when absent. -/
def Document.get_item (d : Document) (key : String) : Except PyErr PVal :=
  match rawLookup d.store key with
  | some v => Except.ok v
  | Option.none => Except.error PyErr.keyError

/-- `getattr(d, key)` for data keys: `__init__` binds the instance
`__dict__` to the document itself, so attribute lookup reads the same raw
store as item lookup; a missing key raises `AttributeError`. -/
def Document.get_attr (d : Document) (key : String) : Except PyErr PVal :=
  match rawLookup d.store key with
  | some v => Except.ok v
  | Option.none => Except.error PyErr.attributeError

/-- `Document.keys()`: raw keys with every string key starting with the `_`
sentinel filtered out (in the model all keys are strings, so the
`isinstance(k, str)` guard of the source is always true). -/
def Document.keys (d : Document) : List String :=
  (d.store.map Prod.fst).filter (fun k => !(underscored k))

/-- `Document.items()`: raw items with `_`-prefixed keys filtered out. -/
def Document.items (d : Document) : List (String × PVal) :=
  d.store.filter (fun p => !(underscored p.1))

/-- `Document.values()`: the values of the filtered items. -/
def Document.values (d : Document) : List PVal :=
  (d.store.filter (fun p => !(underscored p.1))).map Prod.snd

/-- `Document.__iter__()`: same filtered key sequence as `keys()`. -/
def Document.iterKeys (d : Document) : List String :=
  (d.store.map Prod.fst).filter (fun k => !(underscored k))

/-- `Document.__len__()`: `len(list(self.keys()))`. -/
def Document.len (d : Document) : Nat :=
  d.keys.length

/-- `Document.to_name_dict_pair()`: because `Document` overrides
`__iter__`/`keys`, `dict(self)` takes the mapping-protocol path — it builds
the shallow copy from the filtered `keys()` view via `__getitem__`, so every
`_`-prefixed key (not just `_name`) is dropped; the subsequent
`ret.pop('_name', None)` is then a no-op.  The name is read back through
attribute access (`AttributeError` if the reserved key is somehow
absent). -/
def Document.to_name_dict_pair (d : Document) : Except PyErr (PVal × Store) :=
  match rawLookup d.store ("_name") with
  | some name =>
    Except.ok (name,
      rawEraseKey (d.store.filter (fun p => !(underscored p.1))) ("_name"))
  | Option.none => Except.error PyErr.attributeError

/-- `value[key]` for an arbitrary value: raw dict lookup on mappings
(`Document.__getitem__` is the inherited raw one), `TypeError` on
non-mappings (e.g. string indices must be integers). -/
def pysubscript : PVal → String → Except PyErr PVal
  | PVal.dict s, key =>
    match rawLookup s key with
    | some v => Except.ok v
    | Option.none => Except.error PyErr.keyError
  | PVal.doc s, key =>
    match rawLookup s key with
    | some v => Except.ok v
    | Option.none => Except.error PyErr.keyError
  | _, _ => Except.error PyErr.typeError

/-- `doct.ref_doc_to_uid(doc, field)`: decompose with `to_name_dict_pair`,
replace `field` in the plain copy by `doc[field]['uid']`, rebuild. -/
def ref_doc_to_uid (d : Document) (field : String) : Except PyErr Document :=
  match d.to_name_dict_pair with
  | Except.error e => Except.error e
  | Except.ok (name, dd) =>
    match rawLookup dd field with
    | Option.none => Except.error PyErr.keyError
    | some v =>
      match pysubscript v ("uid") with
      | Except.error e => Except.error e
      | Except.ok u => Except.ok (Document.new name (rawSetItem dd field u))

/-- `float(x)` applied to a document value: succeeds on numbers, defers to
the (external, parameterised) numeric-string grammar on strings, and raises
`TypeError` on `None`, lists and mappings.  `α` is the external float
type. -/
def floatArg {α : Type} (parseNumStr : String → Option α) (ofInt : Int → α) :
    PVal → Option α
  | PVal.int n => some (ofInt n)
  | PVal.str s => parseNumStr s
  | _ => Option.none

/-- `doct.pretty_print_time(timestamp)`: try `float(timestamp)`; on
`TypeError`/`ValueError` return the input unchanged; otherwise format via
the external `datetime`/`humanize` collaborators (abstracted as
`render`). -/
def pretty_print_time {α : Type} (parseNumStr : String → Option α)
    (ofInt : Int → α) (render : α → String) (timestamp : PVal) : PVal :=
  match floatArg parseNumStr ofInt timestamp with
  | Option.none => timestamp
  | some t => PVal.str (render t)

/-- Python string comparison on the underlying code points (lexicographic),
as a Bool; used by `sorted`. -/
def charListLt : List Char → List Char → Bool
  | [], [] => false
  | [], _ :: _ => true
  | _ :: _, [] => false
  | a :: as, b :: bs => if a == b then charListLt as bs else decide (a < b)

/-- `a < b` on Python strings. -/
def strLt (a b : String) : Bool :=
  charListLt a.toList b.toList

/-- Stable insertion of one item into a key-sorted item list: the new item
goes after every existing item whose key is not greater. -/
def insertSorted (p : String × PVal) : List (String × PVal) → List (String × PVal)
  | [] => [p]
  | q :: rest =>
    if strLt p.1 q.1 then p :: q :: rest else q :: insertSorted p rest

/-- `sorted(items)`: a stable sort by key.  (Python sorts the `(key, value)`
tuples; with the distinct keys of a well-formed dict this is a key sort.) -/
def sortByKey (l : List (String × PVal)) : List (String × PVal) :=
  l.foldr insertSorted []

/-- `s.split('\n')` on the character list: every separator starts a new
chunk, an empty string yields one empty chunk. -/
def splitChars (sep : Char) : List Char → List (List Char)
  | [] => [[]]
  | c :: rest =>
    match splitChars sep rest with
    | [] => [[c]]
    | l :: ls => if c == sep then [] :: l :: ls else (c :: l) :: ls

/-- `ret.split('\n')`. -/
def splitLines (s : String) : List String :=
  (splitChars (Char.ofNat 10) s.toList).map String.mk

/-- `'  ' * tabs` and friends: a run of spaces. -/
def spaces (n : Nat) : String :=
  String.mk (List.replicate n (Char.ofNat 32))

/-- `'%-{w}s' % s`: left-justify by padding with spaces up to width `w`
(never truncates). -/
def padRight (s : String) (w : Nat) : String :=
  s ++ spaces (w - s.length)

/-- `s[:n]`. -/
def strTake (s : String) (n : Nat) : String :=
  String.mk (s.toList.take n)

/-- The ReST header characters of `vstr`, in source order (written by code
point): `= - ` + backtick + `: . ' " ~ ^ _ * + #` followed by
`! $ % & ( ) , / ; < > ? @ [ \ ] { | }`. -/
def headings : List Char :=
  ([61, 45, 96, 58, 46, 39, 34, 126, 94, 95, 42, 43, 35,
    33, 36, 37, 38, 40, 41, 44, 47, 59, 60, 62, 63, 64,
    91, 92, 93, 123, 124, 125] : List Nat).map Char.ofNat

/-- `value.items()` as called by the renderer: filtered view on a
`Document`, raw view on a plain dict, `AttributeError` otherwise. -/
def pyItemsView : PVal → Except PyErr (List (String × PVal))
  | PVal.doc s => Except.ok (s.filter (fun p => !(underscored p.1)))
  | PVal.dict s => Except.ok s
  | _ => Except.error PyErr.attributeError

/-- `for val in value`: lists yield elements, mappings yield their keys
(filtered for a `Document`, whose `__iter__` is overridden), strings yield
one-character strings, the rest raise `TypeError`. -/
def pyIter : PVal → Except PyErr (List PVal)
  | PVal.list xs => Except.ok xs
  | PVal.dict s => Except.ok (s.map (fun p => PVal.str p.1))
  | PVal.doc s =>
    Except.ok ((s.filter (fun p => !(underscored p.1))).map (fun p => PVal.str p.1))
  | PVal.str s => Except.ok (s.toList.map (fun c => PVal.str (String.mk [c])))
  | _ => Except.error PyErr.typeError

/-- `len(value)`: strings, lists, dicts (with distinct keys) and `Document`s
(whose `__len__` counts non-reserved keys); `TypeError` otherwise. -/
def pyLen : PVal → Except PyErr Nat
  | PVal.str s => Except.ok s.length
  | PVal.list xs => Except.ok xs.length
  | PVal.dict s => Except.ok s.length
  | PVal.doc s => Except.ok ((s.filter (fun p => !(underscored p.1))).length)
  | _ => Except.error PyErr.typeError

/-- `'_name' in value` for mapping values: the inherited raw
`dict.__contains__`. -/
def pyContainsRaw : PVal → String → Bool
  | PVal.dict s, key => rawContains s key
  | PVal.doc s, key => rawContains s key
  | _, _ => false

/-- `doct._format_dict(value, name_width, value_width, name, tabs)`: renders
a plain mapping as an indented `key: value` block, recursing into
mapping-valued entries one tab deeper.  `pystr` is Python's builtin `str`
(an external), the leading `Nat` is recursion fuel. -/
def _format_dict (pystr : PVal → String) :
    Nat → PVal → Nat → Nat → String → Nat → Except PyErr String
  | 0, _, _, _, _, _ => Except.error PyErr.outOfFuel
  | fuel+1, value, name_width, value_width, _nm, tabs =>
    match pyItemsView value with
    | Except.error e => Except.error e
    | Except.ok items =>
      items.foldlM
        (fun ret kv =>
          match kv.2 with
          | PVal.dict _ =>
            match _format_dict pystr fuel kv.2 name_width value_width kv.1 (tabs+1) with
            | Except.ok sub => Except.ok (ret ++ sub)
            | Except.error e => Except.error e
          | PVal.doc _ =>
            match _format_dict pystr fuel kv.2 name_width value_width kv.1 (tabs+1) with
            | Except.ok sub => Except.ok (ret ++ sub)
            | Except.error e => Except.error e
          | _ =>
            Except.ok (ret ++ "\n" ++ spaces (2*tabs)
              ++ padRight (strTake kv.1 16) name_width ++ ": "
              ++ padRight (pystr kv.2) value_width))
        ""

/-- The body of the first `for name, value in sorted(doc.items())` loop of
`vstr`: threads the accumulated output string and the deferred
`documents` list.  `table` stands for the external
`prettytable`-backed `_format_data_keys_dict`, applied to the `items()` view
of the `data_keys` value. -/
def vstrProcessItem (pystr : PVal → String) (table : List (String × PVal) → String)
    (fuel name_width value_width : Nat) (acc : String × List (String × PVal))
    (item : String × PVal) : Except PyErr (String × List (String × PVal)) :=
  if item.1 == "descriptors" then
    match pyIter item.2 with
    | Except.error e => Except.error e
    | Except.ok elems => Except.ok (acc.1, acc.2 ++ elems.map (fun v => (item.1, v)))
  else if item.1 == "data_keys" then
    match pyItemsView item.2 with
    | Except.error e => Except.error e
    | Except.ok entries => Except.ok (acc.1 ++ "\n" ++ table entries, acc.2)
  else
    match item.2 with
    | PVal.dict _ =>
      if pyContainsRaw item.2 ("_name") then
        Except.ok (acc.1, acc.2 ++ [item])
      else
        match _format_dict pystr fuel item.2 name_width value_width item.1 1 with
        | Except.error e => Except.error e
        | Except.ok sub =>
          Except.ok (acc.1 ++ "\n" ++ padRight item.1 name_width ++ ":" ++ sub, acc.2)
    | PVal.doc _ =>
      if pyContainsRaw item.2 ("_name") then
        Except.ok (acc.1, acc.2 ++ [item])
      else
        match _format_dict pystr fuel item.2 name_width value_width item.1 1 with
        | Except.error e => Except.error e
        | Except.ok sub =>
          Except.ok (acc.1 ++ "\n" ++ padRight item.1 name_width ++ ":" ++ sub, acc.2)
    | _ =>
      Except.ok (acc.1 ++ "\n" ++ padRight (strTake item.1 16) name_width ++ ": "
        ++ padRight (pystr item.2) value_width, acc.2)

/-- `doct.vstr(doc, indent)`: the recursive document walker and formatter.
Header (name underlined with `headings[indent]`), then the sorted item loop,
then the deferred nested sections at `indent+1`, finally two spaces of
indentation per level prepended to every line.  `pystr` and `table` are the
external collaborators, the leading `Nat` is recursion fuel. -/
def vstr (pystr : PVal → String) (table : List (String × PVal) → String) :
    Nat → PVal → Nat → Except PyErr String
  | 0, _, _ => Except.error PyErr.outOfFuel
  | fuel+1, doc, indent =>
    match pysubscript doc ("_name") with
    | Except.error e => Except.error e
    | Except.ok name =>
      match headings.get? indent with
      | Option.none => Except.error PyErr.indexError
      | some hchar =>
        match pyLen name with
        | Except.error e => Except.error e
        | Except.ok n =>
          let ret0 := "\n" ++ pystr name ++ "\n" ++ String.mk (List.replicate n hchar)
          match pyItemsView doc with
          | Except.error e => Except.error e
          | Except.ok items =>
            match (sortByKey items).foldlM
                (vstrProcessItem pystr table fuel 16 40) (ret0, []) with
            | Except.error e => Except.error e
            | Except.ok (ret1, documents) =>
              match documents.foldlM
                  (fun r p =>
                    match vstr pystr table fuel p.2 (indent+1) with
                    | Except.error e => Except.error e
                    | Except.ok sub => Except.ok (r ++ "\n" ++ sub)) ret1 with
              | Except.error e => Except.error e
              | Except.ok ret2 =>
                Except.ok (String.intercalate "\n"
                  ((splitLines ret2).map (fun line => spaces (2*indent) ++ line)))

namespace Alias

/-!
A small heap model used to settle the sharing behaviour of
`to_name_dict_pair`.  `dict(self)` copies only the top-level entries of a
document; nested mutable objects (plain dicts) live in a heap and are
referenced, not copied.  `AVal` is the value universe (scalars plus
references), a heap is a list of plain-dict stores indexed by address, and
observations dereference a key path.
-/

/-- Heap-model values: scalars or a reference to a heap-allocated plain
dict. -/
inductive AVal where
  | int (n : Int)
  | str (s : String)
  | ref (a : Nat)
deriving DecidableEq

/-- The store of one plain dict in the heap model. -/
abbrev AStore := List (String × AVal)

/-- The heap of mutable plain dicts; the address of an object is its index. -/
abbrev Heap := List AStore

/-- A document in the heap model: its raw store (including `_name`); its
entries may reference heap objects. -/
structure ADoc where
  store : AStore

/-- `to_name_dict_pair` in the heap model: `dict(self)` allocates a fresh
plain dict holding the same top-level entries (same references — a shallow
copy).  As in the main model, the copy is built from the overridden,
filtered `keys()` view, so every `_`-prefixed entry is dropped and the
`pop('_name', None)` that follows is a no-op.  The name is returned with the
address of the fresh object. -/
def to_name_dict_pair (h : Heap) (d : ADoc) : Heap × Option AVal × Nat :=
  (h ++ [rawEraseKey (d.store.filter (fun p => !(underscored p.1))) ("_name")],
    rawLookup d.store ("_name"), h.length)

/-- Mutate the heap object at address `a` (e.g. `dd[k] = v` or a nested
`dd['a']['b'] = v`). -/
def setHeap (h : Heap) (a : Nat) (st : AStore) : Heap :=
  h.set a st

/-- Dereference a key path starting from a value: follow the reference, look
the key up in the referenced store, continue. -/
def derefPath (h : Heap) : AVal → List String → Option AVal
  | v, [] => some v
  | AVal.ref a, key :: rest =>
    match h.get? a with
    | some st =>
      match rawLookup st key with
      | some v => derefPath h v rest
      | Option.none => Option.none
    | Option.none => Option.none
  | _, _ :: _ => Option.none

/-- The observable contents of a document: the value reached from its store
along a (non-empty) key path. -/
def docPath (h : Heap) (d : ADoc) : List String → Option AVal
  | [] => Option.none
  | key :: rest =>
    match rawLookup d.store key with
    | some v => derefPath h v rest
    | Option.none => Option.none

/-- A value references only addresses below `n`. -/
def valClosedB (n : Nat) : AVal → Bool
  | AVal.ref a => decide (a < n)
  | _ => true

/-- Every value of the store references only addresses below `n`. -/
def storeClosedB (n : Nat) (s : AStore) : Bool :=
  s.all (fun p => valClosedB n p.2)

/-- Every object of the heap references only addresses inside the heap. -/
def heapClosedB (h : Heap) : Bool :=
  h.all (fun st => storeClosedB h.length st)

/-- Counterexample data: a document whose payload key `a` references the
heap-allocated plain dict `{b: 1}` at address 0. -/
def cexHeap : Heap :=
  [[(("b"), AVal.int 1)]]

/-- The counterexample document `Document('x', {a: {b: 1}})`. -/
def cexDoc : ADoc :=
  ⟨[(("a"), AVal.ref 0), (("_name"), AVal.str "x")]⟩

/-- The heap right after `cexDoc.to_name_dict_pair()`: the original nested
dict at address 0 plus the shallow payload copy at address 1. -/
def cexHeapCopied : Heap :=
  (to_name_dict_pair cexHeap cexDoc).1

/-- The heap after mutating, through the returned payload copy, the nested
dict it shares with the document: `dd['a']['b'] = 2`. -/
def cexHeapMutated : Heap :=
  setHeap cexHeapCopied 0 [(("b"), AVal.int 2)]

end Alias

/-- A trivial stand-in for the external builtin `str` used to instantiate
the renderer on concrete inputs. -/
def pystr0 (_ : PVal) : String :=
  ""

/-- A trivial stand-in for the external table renderer used to instantiate
the renderer on concrete inputs. -/
def table0 (_ : List (String × PVal)) : String :=
  ""

/-- A chain of nested documents: `deepDoc n` nests `n+1` documents, so
rendering it reaches recursion depth `n`. -/
def deepDoc : Nat → PVal
  | 0 => PVal.doc [(("_name"), PVal.str "d")]
  | n+1 => PVal.doc [(("_name"), PVal.str "d"), (("x"), deepDoc n)]

/-- A document whose `descriptors` field is mapping-shaped, not
list-shaped. -/
def descMapDoc : PVal :=
  PVal.doc [(("_name"), PVal.str "z"),
    (("descriptors"), PVal.dict [(("k"), PVal.int 1)])]

/-- The same payload under a non-special key, for comparison: the generic
mapping branch handles it. -/
def plainMapDoc : PVal :=
  PVal.doc [(("_name"), PVal.str "z"),
    (("plain"), PVal.dict [(("k"), PVal.int 1)])]

/-- Whether a rendering attempt succeeded. -/
def renderOk : Except PyErr String → Bool
  | Except.ok _ => true
  | Except.error _ => false

/-- The tests' animal document: `Document('animal', {uid: U, animal: 'aardvark'})`. -/
def animalDoc : Document :=
  Document.new (PVal.str "animal")
    [(("uid"), PVal.str "U"), (("animal"), PVal.str "aardvark")]

/-- The tests' zoo document, whose `prime_attraction` holds the animal
document. -/
def zooDoc : Document :=
  Document.new (PVal.str "zoo")
    [(("name"), PVal.str "BNL Zoo"), (("prime_attraction"), PVal.doc animalDoc.store)]

theorem rawLookup_setItem_self {α : Type} (s : List (String × α)) (key : String) (v : α) :
    rawLookup (rawSetItem s key v) key = some v := by
  induction s with
  | nil => simp [rawSetItem, rawLookup]
  | cons p rest ih =>
    cases p with
    | mk k w =>
      by_cases h : k = key
      · subst h
        simp [rawSetItem, rawLookup]
      · simp [rawSetItem, rawLookup, h, ih]

theorem rawLookup_setItem_ne {α : Type} (s : List (String × α)) (key k' : String) (v : α)
    (h : k' ≠ key) :
    rawLookup (rawSetItem s key v) k' = rawLookup s k' := by
  induction s with
  | nil => simp [rawSetItem, rawLookup, Ne.symm h]
  | cons p rest ih =>
    cases p with
    | mk k w =>
      by_cases hk : k = key
      · subst hk
        simp [rawSetItem, rawLookup, Ne.symm h]
      · simp only [rawSetItem, beq_iff_eq, if_neg hk]
        by_cases hk' : k = k'
        · subst hk'
          simp [rawLookup]
        · simp [rawLookup, hk', ih]

theorem rawLookup_eraseKey_ne {α : Type} (s : List (String × α)) (key k' : String)
    (h : k' ≠ key) :
    rawLookup (rawEraseKey s key) k' = rawLookup s k' := by
  induction s with
  | nil => simp [rawEraseKey]
  | cons p rest ih =>
    cases p with
    | mk k w =>
      by_cases hk : k = key
      · subst hk
        simp [rawEraseKey, rawLookup, Ne.symm h]
      · simp only [rawEraseKey, beq_iff_eq, if_neg hk]
        by_cases hk' : k = k'
        · subst hk'
          simp [rawLookup]
        · simp [rawLookup, hk', ih]

theorem mem_storeKeys_setItem {α : Type} (s : List (String × α)) (key k' : String) (v : α) :
    k' ∈ storeKeys (rawSetItem s key v) ↔ k' ∈ storeKeys s ∨ k' = key := by
  induction s with
  | nil => simp [rawSetItem, storeKeys]
  | cons p rest ih =>
    cases p with
    | mk k w =>
      by_cases hk : k = key
      · subst hk
        simp [rawSetItem, storeKeys]
        tauto
      · simp only [rawSetItem, beq_iff_eq, if_neg hk, storeKeys, List.map_cons,
          List.mem_cons] at *
        rw [ih]
        tauto

theorem nodup_setItem {α : Type} (s : List (String × α)) (key : String) (v : α)
    (h : (storeKeys s).Nodup) :
    (storeKeys (rawSetItem s key v)).Nodup := by
  induction s with
  | nil => simp [rawSetItem, storeKeys]
  | cons p rest ih =>
    cases p with
    | mk k w =>
      simp only [storeKeys, List.map_cons, List.nodup_cons] at h
      by_cases hk : k = key
      · subst hk
        simpa [rawSetItem, storeKeys, List.nodup_cons] using h
      · simp only [rawSetItem, beq_iff_eq, if_neg hk, storeKeys, List.map_cons,
          List.nodup_cons]
        refine ⟨?_, ih h.2⟩
        intro hmem
        rcases (mem_storeKeys_setItem rest key k v).1 hmem with hm | he
        · exact h.1 hm
        · exact hk he

theorem storeKeys_eraseKey_sublist {α : Type} (s : List (String × α)) (key : String) :
    (storeKeys (rawEraseKey s key)).Sublist (storeKeys s) := by
  induction s with
  | nil => simp [rawEraseKey]
  | cons p rest ih =>
    cases p with
    | mk k w =>
      by_cases hk : k = key
      · subst hk
        simp only [rawEraseKey, beq_iff_eq, if_pos rfl, storeKeys, List.map_cons]
        exact (List.sublist_cons_self _ _)
      · simp only [rawEraseKey, beq_iff_eq, if_neg hk, storeKeys, List.map_cons]
        exact ih.cons₂ k

theorem nodup_eraseKey {α : Type} (s : List (String × α)) (key : String)
    (h : (storeKeys s).Nodup) :
    (storeKeys (rawEraseKey s key)).Nodup :=
  (storeKeys_eraseKey_sublist s key).nodup h

theorem rawLookup_eq_none_of_not_mem {α : Type} (s : List (String × α)) (key : String)
    (h : key ∉ storeKeys s) :
    rawLookup s key = Option.none := by
  induction s with
  | nil => rfl
  | cons p rest ih =>
    cases p with
    | mk k w =>
      simp only [storeKeys, List.map_cons, List.mem_cons] at h
      push_neg at h
      simp [rawLookup, Ne.symm h.1, ih (by simpa [storeKeys] using h.2)]

theorem rawLookup_foldl_setItem_of_none {α : Type} (ps : List (String × α)) :
    ∀ (acc : List (String × α)) (key : String),
      rawLookup ps key = Option.none →
      rawLookup (ps.foldl (fun s p => rawSetItem s p.1 p.2) acc) key = rawLookup acc key := by
  induction ps with
  | nil => intro acc key _; rfl
  | cons p tl ih =>
    intro acc key hnone
    cases p with
    | mk a b =>
      simp only [rawLookup] at hnone
      by_cases ha : a = key
      · simp [ha] at hnone
      · simp only [beq_iff_eq, if_neg ha] at hnone
        simp only [List.foldl_cons]
        rw [ih (rawSetItem acc a b) key hnone,
          rawLookup_setItem_ne acc a key b (Ne.symm ha)]

theorem rawLookup_foldl_setItem_of_some {α : Type} (ps : List (String × α)) :
    ∀ (acc : List (String × α)) (key : String) (v : α),
      (storeKeys ps).Nodup →
      rawLookup ps key = some v →
      rawLookup (ps.foldl (fun s p => rawSetItem s p.1 p.2) acc) key = some v := by
  induction ps with
  | nil => intro acc key v _ hsome; simp [rawLookup] at hsome
  | cons p tl ih =>
    intro acc key v hnd hsome
    cases p with
    | mk a b =>
      simp only [storeKeys, List.map_cons, List.nodup_cons] at hnd
      simp only [rawLookup] at hsome
      by_cases ha : a = key
      · subst ha
        simp only [beq_self_eq_true, if_true, Option.some.injEq] at hsome
        subst hsome
        have htl : rawLookup tl a = Option.none :=
          rawLookup_eq_none_of_not_mem tl a hnd.1
        simp only [List.foldl_cons]
        rw [rawLookup_foldl_setItem_of_none tl (rawSetItem acc a b) a htl,
          rawLookup_setItem_self]
      · simp only [beq_iff_eq, if_neg ha] at hsome
        simp only [List.foldl_cons]
        exact ih (rawSetItem acc a b) key v hnd.2 hsome

theorem rawLookup_fromPairs {α : Type} (ps : List (String × α)) (key : String)
    (hnd : (storeKeys ps).Nodup) :
    rawLookup (fromPairs ps) key = rawLookup ps key := by
  cases hsome : rawLookup ps key with
  | none =>
    rw [fromPairs, rawLookup_foldl_setItem_of_none ps [] key hsome]
    rfl
  | some v =>
    rw [fromPairs, rawLookup_foldl_setItem_of_some ps [] key v hnd hsome]

theorem nodup_foldl_setItem {α : Type} (ps : List (String × α)) :
    ∀ acc : List (String × α), (storeKeys acc).Nodup →
      (storeKeys (ps.foldl (fun s p => rawSetItem s p.1 p.2) acc)).Nodup := by
  induction ps with
  | nil => intro acc h; exact h
  | cons p tl ih =>
    intro acc h
    simp only [List.foldl_cons]
    exact ih (rawSetItem acc p.1 p.2) (nodup_setItem acc p.1 p.2 h)

theorem nodup_fromPairs {α : Type} (ps : List (String × α)) :
    (storeKeys (fromPairs ps)).Nodup :=
  nodup_foldl_setItem ps [] (by simp [storeKeys])

theorem nodup_new_store (name : PVal) (init : List (String × PVal)) :
    (storeKeys (Document.new name init).store).Nodup :=
  nodup_setItem (fromPairs init) ("_name") name (nodup_fromPairs init)

theorem rawLookup_new_name (name : PVal) (init : List (String × PVal)) :
    rawLookup (Document.new name init).store ("_name") = some name :=
  rawLookup_setItem_self (fromPairs init) ("_name") name

theorem rawLookup_new_ne (name : PVal) (init : List (String × PVal)) (key : String)
    (h : key ≠ "_name") :
    rawLookup (Document.new name init).store key = rawLookup (fromPairs init) key :=
  rawLookup_setItem_ne (fromPairs init) ("_name") key name h

theorem rawLookup_filter_of_not_underscored {α : Type} (s : List (String × α))
    (key : String) (h : underscored key = false) :
    rawLookup (s.filter (fun p => !(underscored p.1))) key = rawLookup s key := by
  induction s with
  | nil => rfl
  | cons p rest ih =>
    cases p with
    | mk k v =>
      by_cases hk : k = key
      · subst hk
        simp [List.filter_cons, h, rawLookup]
      · by_cases hu : underscored k
        · simp [List.filter_cons, hu, rawLookup, hk, ih]
        · simp [List.filter_cons, hu, rawLookup, hk, ih]

theorem rawLookup_filter_of_underscored {α : Type} (s : List (String × α))
    (key : String) (h : underscored key = true) :
    rawLookup (s.filter (fun p => !(underscored p.1))) key = Option.none := by
  apply rawLookup_eq_none_of_not_mem
  intro hmem
  simp only [storeKeys, List.mem_map, List.mem_filter] at hmem
  obtain ⟨p, ⟨hpmem, hpcond⟩, hpfst⟩ := hmem
  rw [hpfst] at hpcond
  rw [h] at hpcond
  exact Bool.noConfusion hpcond

theorem nodup_filter_underscored {α : Type} (s : List (String × α))
    (h : (storeKeys s).Nodup) :
    (storeKeys (s.filter (fun p => !(underscored p.1)))).Nodup :=
  ((List.filter_sublist s).map Prod.fst).nodup h

theorem rawEraseKey_of_lookup_none {α : Type} (s : List (String × α)) (key : String)
    (h : rawLookup s key = Option.none) :
    rawEraseKey s key = s := by
  induction s with
  | nil => rfl
  | cons p rest ih =>
    cases p with
    | mk k v =>
      by_cases hk : k = key
      · subst hk
        simp [rawLookup] at h
      · simp only [rawLookup, beq_iff_eq, if_neg hk] at h
        simp [rawEraseKey, hk, ih h]

theorem ne_name_of_not_underscored (key : String) (h : underscored key = false) :
    key ≠ ("_name") := by
  intro he
  rw [he] at h
  exact absurd h (by decide)

theorem mem_storeKeys_foldl_setItem {α : Type} (ps : List (String × α)) :
    ∀ (acc : List (String × α)) (key : String),
      key ∈ storeKeys (ps.foldl (fun s p => rawSetItem s p.1 p.2) acc) →
      key ∈ storeKeys acc ∨ key ∈ storeKeys ps := by
  induction ps with
  | nil => intro acc key h; exact Or.inl h
  | cons p tl ih =>
    intro acc key h
    rcases ih (rawSetItem acc p.1 p.2) key h with h1 | h2
    · rcases (mem_storeKeys_setItem acc p.1 key p.2).1 h1 with hm | he
      · exact Or.inl hm
      · right
        simp [storeKeys, he]
    · right
      simp only [storeKeys, List.map_cons, List.mem_cons]
      right
      simpa [storeKeys] using h2

theorem mem_storeKeys_fromPairs {α : Type} (ps : List (String × α)) (key : String)
    (h : key ∈ storeKeys (fromPairs ps)) :
    key ∈ storeKeys ps := by
  rcases mem_storeKeys_foldl_setItem ps [] key h with h1 | h2
  · simp [storeKeys] at h1
  · exact h2

/-- Claim C1: every write operation on a `Document` (`__setitem__`,
`__setattr__`, `__delitem__`, `__delattr__`, `update`, `pop`) fails with
`DocumentIsReadOnly`, and the post-call state is the pre-call document
unchanged (key set, values and the reserved name field included) — the check
fires before any mutation. -/
theorem write_ops_fail_readonly (d : Document) (key : String) (value : PVal)
    (other : List (String × PVal)) (dflt : Option PVal) :
    d.setItemOp key value = (some PyErr.documentIsReadOnly, d) ∧
    d.setAttrOp key value = (some PyErr.documentIsReadOnly, d) ∧
    d.delItemOp key = (some PyErr.documentIsReadOnly, d) ∧
    d.delAttrOp key = (some PyErr.documentIsReadOnly, d) ∧
    d.updateOp other = (some PyErr.documentIsReadOnly, d) ∧
    d.popOp key dflt = (some PyErr.documentIsReadOnly, d) :=
  ⟨by simp [Document.setItemOp, Document.dictIsDocument], rfl, rfl, rfl, rfl, rfl⟩

/-- Claim C10: the constructor inserts the reserved name field after copying
the initial entries, so for every name and every initial mapping — including
one that itself binds `_name` — the constructed document maps `_name` to the
name argument, and item lookup of `_name` returns it. -/
theorem new_reserved_name_overwrites (name : PVal) (init : List (String × PVal)) :
    rawLookup (Document.new name init).store ("_name") = some name ∧
    (Document.new name init).get_item ("_name") = Except.ok name := by
  refine ⟨rawLookup_new_name name init, ?_⟩
  simp [Document.get_item, rawLookup_new_name]

/-- Claim C2 counterexample: the round-trip law fails for a payload with a
`_`-prefixed key.  `dict(self)` copies through the filtered `keys()` view,
so for `Document('x', {_foo: 1})` the decomposition returns an empty
payload, and the rebuilt document no longer contains `_foo`. -/
theorem round_trip_drops_underscore_key :
    (Document.new (PVal.str "x") [(("_foo"), PVal.int 1)]).to_name_dict_pair
      = Except.ok (PVal.str "x", ([] : Store)) ∧
    rawLookup (Document.new (PVal.str "x") ([] : List (String × PVal))).store ("_foo")
      ≠ rawLookup (Document.new (PVal.str "x") [(("_foo"), PVal.int 1)]).store ("_foo") := by
  refine ⟨rfl, ?_⟩
  intro h
  exact Option.noConfusion (show (Option.none : Option PVal) = some (PVal.int 1) from h)

/-- Claim C2, amended: decomposing with `to_name_dict_pair` and rebuilding
yields a document that agrees with the original on the reserved name field
and on every non-`_`-prefixed key; when the initial mapping contains no
`_`-prefixed key at all, the rebuilt document's raw mapping is pointwise
equal to the original's (the full round-trip law).  Other `_`-prefixed
payload entries are dropped by the `dict(self)` copy and lost (see the
counterexample). -/
theorem to_name_dict_pair_round_trip (name : PVal) (init : List (String × PVal)) :
    ∃ payload,
      (Document.new name init).to_name_dict_pair = Except.ok (name, payload) ∧
      (∀ key, underscored key = false →
        rawLookup (Document.new name payload).store key
          = rawLookup (Document.new name init).store key) ∧
      rawLookup (Document.new name payload).store ("_name")
        = rawLookup (Document.new name init).store ("_name") ∧
      ((∀ p ∈ init, underscored p.1 = false) →
        ∀ key, rawLookup (Document.new name payload).store key
          = rawLookup (Document.new name init).store key) := by
  have hP : rawEraseKey ((Document.new name init).store.filter
        (fun p => !(underscored p.1))) ("_name")
      = (Document.new name init).store.filter (fun p => !(underscored p.1)) :=
    rawEraseKey_of_lookup_none _ _ (rawLookup_filter_of_underscored _ _ (by decide))
  have hndF : (storeKeys ((Document.new name init).store.filter
      (fun p => !(underscored p.1)))).Nodup :=
    nodup_filter_underscored _ (nodup_new_store name init)
  have hmain : ∀ key, underscored key = false →
      rawLookup (Document.new name
          (rawEraseKey ((Document.new name init).store.filter
            (fun p => !(underscored p.1))) ("_name"))).store key
        = rawLookup (Document.new name init).store key := by
    intro key hk
    have hkn : key ≠ ("_name") := ne_name_of_not_underscored key hk
    rw [rawLookup_new_ne _ _ _ hkn, hP, rawLookup_fromPairs _ _ hndF,
      rawLookup_filter_of_not_underscored _ _ hk]
  refine ⟨rawEraseKey ((Document.new name init).store.filter
      (fun p => !(underscored p.1))) ("_name"), ?_, hmain, ?_, ?_⟩
  · simp [Document.to_name_dict_pair, rawLookup_new_name]
  · rw [rawLookup_new_name, rawLookup_new_name]
  · intro hinit key
    by_cases hk : underscored key = false
    · exact hmain key hk
    · have hk2 : underscored key = true := by
        cases hcc : underscored key
        · exact absurd hcc hk
        · rfl
      by_cases hkn : key = "_name"
      · subst hkn
        rw [rawLookup_new_name, rawLookup_new_name]
      · have hR : rawLookup (Document.new name init).store key = Option.none := by
          rw [rawLookup_new_ne _ _ _ hkn]
          apply rawLookup_eq_none_of_not_mem
          intro hmem
          obtain ⟨p, hp, hpeq⟩ :=
            List.mem_map.mp (mem_storeKeys_fromPairs init key hmem)
          have hfp := hinit p hp
          rw [hpeq] at hfp
          rw [hfp] at hk2
          exact Bool.noConfusion hk2
        have hL : rawLookup (Document.new name
            (rawEraseKey ((Document.new name init).store.filter
              (fun p => !(underscored p.1))) ("_name"))).store key = Option.none := by
          rw [rawLookup_new_ne _ _ _ hkn, hP, rawLookup_fromPairs _ _ hndF,
            rawLookup_filter_of_underscored _ _ hk2]
        rw [hL, hR]

/-- Concrete run of `to_name_dict_pair_round_trip` on a payload without
`_`-prefixed keys: the full round trip holds pointwise. -/
theorem to_name_dict_pair_round_trip_witness :
    ∃ payload,
      (Document.new (PVal.str "t") [(("a"), PVal.int 1)]).to_name_dict_pair
        = Except.ok (PVal.str "t", payload) ∧
      ∀ key, rawLookup (Document.new (PVal.str "t") payload).store key
        = rawLookup (Document.new (PVal.str "t") [(("a"), PVal.int 1)]).store key := by
  obtain ⟨payload, h1, _, _, h4⟩ :=
    to_name_dict_pair_round_trip (PVal.str "t") [(("a"), PVal.int 1)]
  exact ⟨payload, h1, h4 (by decide)⟩

/-- Claim C5: the reserved name key never appears in `keys()`, `items()` or
`values()` (values come exclusively from the non-reserved items), and
`len(d)` equals the number of pairs `items()` yields. -/
theorem name_field_hidden (d : Document) :
    ("_name") ∉ d.keys ∧
    (∀ v, (("_name"), v) ∉ d.items) ∧
    d.len = d.items.length ∧
    d.values = d.items.map Prod.snd := by
  have hu : underscored "_name" = true := by decide
  refine ⟨?_, ?_, ?_, rfl⟩
  · intro hmem
    simp only [Document.keys, List.mem_filter, hu] at hmem
    simp at hmem
  · intro v hmem
    simp only [Document.items, List.mem_filter, hu] at hmem
    simp at hmem
  · simp only [Document.len, Document.keys, Document.items, List.filter_map,
      List.length_map]
    rfl

/-- Claim C6: attribute lookup and item lookup read the same backing store —
for any key present in the raw store both return the stored value; for an
absent key attribute lookup fails with `AttributeError` while item lookup
fails with `KeyError`. -/
theorem attr_item_same_store (d : Document) (key : String) :
    (∀ v, rawLookup d.store key = some v →
      d.get_attr key = Except.ok v ∧ d.get_item key = Except.ok v) ∧
    (rawLookup d.store key = Option.none →
      d.get_attr key = Except.error PyErr.attributeError ∧
      d.get_item key = Except.error PyErr.keyError) := by
  constructor
  · intro v hv
    simp [Document.get_attr, Document.get_item, hv]
  · intro h
    simp [Document.get_attr, Document.get_item, h]

/-- Concrete run of `attr_item_same_store` on the animal document: `uid` is
present and read identically both ways; `zzz` is absent and the two error
kinds differ as claimed. -/
theorem attr_item_same_store_witness :
    (animalDoc.get_attr ("uid") = Except.ok (PVal.str "U") ∧
      animalDoc.get_item ("uid") = Except.ok (PVal.str "U")) ∧
    (animalDoc.get_attr ("zzz") = Except.error PyErr.attributeError ∧
      animalDoc.get_item ("zzz") = Except.error PyErr.keyError) :=
  ⟨(attr_item_same_store animalDoc ("uid")).1 (PVal.str "U") rfl,
   (attr_item_same_store animalDoc ("zzz")).2 rfl⟩

/-- Claim C4 counterexample: the success promise fails for a `_`-prefixed
field.  `dict(self)` inside `to_name_dict_pair` filters `_`-prefixed keys
out of the copy, so for a document whose present field `_attr` holds a
nested document with a `uid`, `ref_doc_to_uid(doc, '_attr')` raises
`KeyError` instead of succeeding. -/
theorem ref_doc_to_uid_underscore_fails :
    rawLookup (Document.new (PVal.str "x")
        [(("_attr"), PVal.doc animalDoc.store)]).store ("_attr")
      = some (PVal.doc animalDoc.store) ∧
    rawLookup animalDoc.store ("uid") = some (PVal.str "U") ∧
    ref_doc_to_uid (Document.new (PVal.str "x")
        [(("_attr"), PVal.doc animalDoc.store)]) ("_attr")
      = Except.error PyErr.keyError :=
  ⟨rfl, rfl, rfl⟩

/-- Claim C4, amended: for a non-`_`-prefixed `field` holding a nested
document that contains `uid`, `ref_doc_to_uid` returns a new document that
maps `field` to the uid value, keeps the reserved name, agrees with the
original on every other non-`_`-prefixed key, and drops every other
`_`-prefixed payload entry (they are filtered out by the `dict(self)`
copy); the original document is untouched (its `field` still holds the
nested document).  It fails with `KeyError` when `field` is absent, when
the nested value lacks `uid`, or — for any `_`-prefixed field — always,
because the copy has dropped it. -/
theorem ref_doc_to_uid_spec (d : Document) (nm : PVal) (field : String)
    (hnm : rawLookup d.store ("_name") = some nm)
    (hnd : (storeKeys d.store).Nodup)
    (hfield : underscored field = false) :
    (∀ sub u, rawLookup d.store field = some (PVal.doc sub) →
      rawLookup sub ("uid") = some u →
      ∃ d', ref_doc_to_uid d field = Except.ok d' ∧
        rawLookup d'.store field = some u ∧
        rawLookup d'.store ("_name") = some nm ∧
        (∀ key, key ≠ field → underscored key = false →
          rawLookup d'.store key = rawLookup d.store key) ∧
        (∀ key, underscored key = true → key ≠ ("_name") →
          rawLookup d'.store key = Option.none) ∧
        d.get_item field = Except.ok (PVal.doc sub)) ∧
    (rawLookup d.store field = Option.none →
      ref_doc_to_uid d field = Except.error PyErr.keyError) ∧
    (∀ sub, rawLookup d.store field = some (PVal.doc sub) →
      rawLookup sub ("uid") = Option.none →
      ref_doc_to_uid d field = Except.error PyErr.keyError) ∧
    (∀ field2, underscored field2 = true →
      ref_doc_to_uid d field2 = Except.error PyErr.keyError) := by
  have hfn : field ≠ ("_name") := ne_name_of_not_underscored field hfield
  have hpair : d.to_name_dict_pair
      = Except.ok (nm,
          rawEraseKey (d.store.filter (fun p => !(underscored p.1))) ("_name")) := by
    simp [Document.to_name_dict_pair, hnm]
  have hP : rawEraseKey (d.store.filter (fun p => !(underscored p.1))) ("_name")
      = d.store.filter (fun p => !(underscored p.1)) :=
    rawEraseKey_of_lookup_none _ _ (rawLookup_filter_of_underscored _ _ (by decide))
  have hndF : (storeKeys (d.store.filter (fun p => !(underscored p.1)))).Nodup :=
    nodup_filter_underscored _ hnd
  refine ⟨?_, ?_, ?_, ?_⟩
  · intro sub u hf hu
    have hf2 : rawLookup (d.store.filter (fun p => !(underscored p.1))) field
        = some (PVal.doc sub) := by
      rw [rawLookup_filter_of_not_underscored _ _ hfield]
      exact hf
    refine ⟨Document.new nm
        (rawSetItem (d.store.filter (fun p => !(underscored p.1))) field u),
      ?_, ?_, ?_, ?_, ?_, ?_⟩
    · simp [ref_doc_to_uid, hpair, hP, hf2, pysubscript, hu]
    · rw [rawLookup_new_ne _ _ _ hfn,
        rawLookup_fromPairs _ _ (nodup_setItem _ _ _ hndF),
        rawLookup_setItem_self]
    · exact rawLookup_new_name _ _
    · intro key hkf hku
      have hkn : key ≠ ("_name") := ne_name_of_not_underscored key hku
      rw [rawLookup_new_ne _ _ _ hkn,
        rawLookup_fromPairs _ _ (nodup_setItem _ _ _ hndF),
        rawLookup_setItem_ne _ _ _ _ hkf,
        rawLookup_filter_of_not_underscored _ _ hku]
    · intro key hku hkn
      have hkf : key ≠ field := by
        intro he
        rw [he] at hku
        rw [hku] at hfield
        exact Bool.noConfusion hfield
      rw [rawLookup_new_ne _ _ _ hkn,
        rawLookup_fromPairs _ _ (nodup_setItem _ _ _ hndF),
        rawLookup_setItem_ne _ _ _ _ hkf,
        rawLookup_filter_of_underscored _ _ hku]
    · simp [Document.get_item, hf]
  · intro hf
    have hf2 : rawLookup (d.store.filter (fun p => !(underscored p.1))) field
        = Option.none := by
      rw [rawLookup_filter_of_not_underscored _ _ hfield]
      exact hf
    simp [ref_doc_to_uid, hpair, hP, hf2]
  · intro sub hf hu
    have hf2 : rawLookup (d.store.filter (fun p => !(underscored p.1))) field
        = some (PVal.doc sub) := by
      rw [rawLookup_filter_of_not_underscored _ _ hfield]
      exact hf
    simp [ref_doc_to_uid, hpair, hP, hf2, pysubscript, hu]
  · intro field2 hu2
    have hf2 : rawLookup (d.store.filter (fun p => !(underscored p.1))) field2
        = Option.none := rawLookup_filter_of_underscored _ _ hu2
    simp [ref_doc_to_uid, hpair, hP, hf2]

/-- Concrete run of `ref_doc_to_uid_spec`: the tests' zoo/animal scenario —
`prime_attraction` is replaced by the animal's uid in the new document, and
the zoo still holds the animal document. -/
theorem ref_doc_to_uid_spec_witness :
    ∃ d', ref_doc_to_uid zooDoc ("prime_attraction") = Except.ok d' ∧
      rawLookup d'.store ("prime_attraction") = some (PVal.str "U") ∧
      rawLookup d'.store ("_name") = some (PVal.str "zoo") ∧
      (∀ key, key ≠ ("prime_attraction") → underscored key = false →
        rawLookup d'.store key = rawLookup zooDoc.store key) ∧
      (∀ key, underscored key = true → key ≠ ("_name") →
        rawLookup d'.store key = Option.none) ∧
      zooDoc.get_item ("prime_attraction") = Except.ok (PVal.doc animalDoc.store) :=
  (ref_doc_to_uid_spec zooDoc (PVal.str "zoo") ("prime_attraction") rfl (by decide)
    (by decide)).1 animalDoc.store (PVal.str "U") rfl rfl

theorem rawLookup_val_mem {α : Type} (s : List (String × α)) (key : String) (v : α)
    (h : rawLookup s key = some v) :
    ∃ p ∈ s, p.2 = v := by
  induction s with
  | nil => simp [rawLookup] at h
  | cons p rest ih =>
    cases p with
    | mk k w =>
      by_cases hk : k = key
      · subst hk
        simp only [rawLookup, beq_self_eq_true, if_true, Option.some.injEq] at h
        exact ⟨(k, w), List.mem_cons_self _ _, h⟩
      · simp only [rawLookup, beq_iff_eq, if_neg hk] at h
        obtain ⟨q, hq, hv⟩ := ih h
        exact ⟨q, List.mem_cons_of_mem _ hq, hv⟩

theorem Alias.setHeap_fresh : ∀ (h : Alias.Heap) (x y : Alias.AStore),
    Alias.setHeap (h ++ [x]) h.length y = h ++ [y]
  | [], _, _ => rfl
  | st :: rest, x, y => by
    show st :: Alias.setHeap (rest ++ [x]) rest.length y = st :: (rest ++ [y])
    rw [Alias.setHeap_fresh rest x y]

theorem Alias.derefPath_extend_irrel (h : Alias.Heap) (x : Alias.AStore)
    (hh : Alias.heapClosedB h = true) :
    ∀ (path : List String) (v : Alias.AVal), Alias.valClosedB h.length v = true →
      Alias.derefPath (h ++ [x]) v path = Alias.derefPath h v path := by
  intro path
  induction path with
  | nil => intro v _; cases v <;> rfl
  | cons key rest ih =>
    intro v hv
    cases v with
    | int n => rfl
    | str s => rfl
    | ref a =>
      have ha : a < h.length := by simpa [Alias.valClosedB] using hv
      have hget : (h ++ [x]).get? a = h.get? a := List.get?_append ha
      cases hst : h.get? a with
      | none => simp [Alias.derefPath, ← List.get?_eq_getElem?, hget, hst]
      | some st =>
        have hmem : st ∈ h := List.get?_mem hst
        have hstc : Alias.storeClosedB h.length st = true :=
          List.all_eq_true.mp hh st hmem
        cases hlook : rawLookup st key with
        | none => simp [Alias.derefPath, ← List.get?_eq_getElem?, hget, hst, hlook]
        | some v2 =>
          obtain ⟨p, hp, hpv⟩ := rawLookup_val_mem st key v2 hlook
          have hv2 : Alias.valClosedB h.length v2 = true := by
            rw [← hpv]
            exact List.all_eq_true.mp hstc p hp
          simp only [Alias.derefPath, ← List.get?_eq_getElem?, hget, hst, hlook]
          exact ih v2 hv2

/-- Claim C3 counterexample: `to_name_dict_pair` is a shallow copy.  For the
document `Document('x', {a: {b: 1}})`, the pair returned places the payload
copy at fresh address 1, whose `a` entry still references the original
nested dict at address 0; mutating that nested dict through the returned
mapping (`dd['a']['b'] = 2`) changes the document's own observable contents
at path `a.b` — contradicting the claim that mutation of values nested
inside the returned mapping leaves the document unchanged. -/
theorem to_name_dict_pair_shares_nested :
    (Alias.to_name_dict_pair Alias.cexHeap Alias.cexDoc).2.2 = 1 ∧
    Alias.derefPath Alias.cexHeapCopied (Alias.AVal.ref 1) [("a")]
      = some (Alias.AVal.ref 0) ∧
    Alias.docPath Alias.cexHeapMutated Alias.cexDoc [("a"), ("b")]
      ≠ Alias.docPath Alias.cexHeapCopied Alias.cexDoc [("a"), ("b")] := by
  refine ⟨rfl, rfl, ?_⟩
  decide

/-- Claim C3, amended: the mapping returned by `to_name_dict_pair` is a
fresh top-level object but a *shallow* copy.  Mutating the returned mapping
itself (replacing its contents arbitrarily) leaves every observation of the
original document unchanged; nested plain mappings, however, are shared, so
mutating one of them through the copy does change the document (see the
counterexample). -/
theorem to_name_dict_pair_top_level_copy (h : Alias.Heap) (d : Alias.ADoc)
    (hd : Alias.storeClosedB h.length d.store = true)
    (hh : Alias.heapClosedB h = true)
    (newStore : Alias.AStore) (path : List String) :
    Alias.docPath
      (Alias.setHeap (Alias.to_name_dict_pair h d).1
        (Alias.to_name_dict_pair h d).2.2 newStore)
      d path
      = Alias.docPath h d path := by
  have hset : Alias.setHeap (Alias.to_name_dict_pair h d).1
      (Alias.to_name_dict_pair h d).2.2 newStore = h ++ [newStore] :=
    Alias.setHeap_fresh h
      (rawEraseKey (d.store.filter (fun p => !(underscored p.1))) ("_name")) newStore
  rw [hset]
  cases path with
  | nil => rfl
  | cons key rest =>
    simp only [Alias.docPath]
    cases hlook : rawLookup d.store key with
    | none => rfl
    | some v =>
      obtain ⟨p, hp, hpv⟩ := rawLookup_val_mem d.store key v hlook
      have hv : Alias.valClosedB h.length v = true := by
        rw [← hpv]
        exact List.all_eq_true.mp hd p hp
      exact Alias.derefPath_extend_irrel h newStore hh rest v hv

/-- Concrete run of `to_name_dict_pair_top_level_copy`: writing a fresh key
into the returned copy of `Document('x', {a: 1})`'s payload leaves the
document's observation at `a` unchanged. -/
theorem to_name_dict_pair_top_level_copy_witness :
    Alias.docPath
      (Alias.setHeap
        (Alias.to_name_dict_pair []
          ⟨[(("_name"), Alias.AVal.str "x"), (("a"), Alias.AVal.int 1)]⟩).1
        (Alias.to_name_dict_pair []
          ⟨[(("_name"), Alias.AVal.str "x"), (("a"), Alias.AVal.int 1)]⟩).2.2
        [(("zz"), Alias.AVal.int 9)])
      ⟨[(("_name"), Alias.AVal.str "x"), (("a"), Alias.AVal.int 1)]⟩ [("a")]
      = Alias.docPath [] ⟨[(("_name"), Alias.AVal.str "x"), (("a"), Alias.AVal.int 1)]⟩
          [("a")] :=
  to_name_dict_pair_top_level_copy []
    ⟨[(("_name"), Alias.AVal.str "x"), (("a"), Alias.AVal.int 1)]⟩
    (by decide) (by decide) [(("zz"), Alias.AVal.int 9)] [("a")]

/-- Claim C7 counterexample: rendering does not succeed at every depth.  The
`headings` list has 32 characters and `headings[indent]` is a plain index
access with no cycling, so rendering a chain of 33 nested documents (the
recursion reaches depth 32) fails with an `IndexError` instead of reusing a
header character. -/
theorem render_depth_32_fails :
    vstr pystr0 table0 40 (deepDoc 32) 0 = Except.error PyErr.indexError := by
  rfl

/-- Claim C7, amended: the header character is `headings[depth]` — a list of
32 pairwise distinct characters, one per depth level, with no cycling: for
any document whose name lookup succeeds, rendering at depth 32 or more fails
with an `IndexError` (the failure happens right after the name is read,
before any item is processed). -/
theorem headings_no_cycling (pystr : PVal → String)
    (table : List (String × PVal) → String) (fuel indent : Nat) (doc nm : PVal)
    (hn : pysubscript doc ("_name") = Except.ok nm)
    (hdeep : 32 ≤ indent) :
    headings.length = 32 ∧ headings.Nodup ∧
    vstr pystr table (fuel+1) doc indent = Except.error PyErr.indexError := by
  refine ⟨rfl, by decide, ?_⟩
  have hnone : headings.get? indent = Option.none := by
    rw [List.get?_eq_none]
    exact le_trans (le_of_eq rfl) hdeep
  simp [vstr, hn, ← List.get?_eq_getElem?, hnone]

/-- Concrete run of `headings_no_cycling`: a single leaf document rendered
at depth 32 hits the index error. -/
theorem headings_no_cycling_witness :
    headings.length = 32 ∧ headings.Nodup ∧
    vstr pystr0 table0 5 (deepDoc 0) 32 = Except.error PyErr.indexError :=
  headings_no_cycling pystr0 table0 4 32 (deepDoc 0) (PVal.str "d") rfl (by decide)

/-- Claim C8 counterexample: a mapping-shaped value under the key
`descriptors` is *not* handled by the generic mapping branch.  The dispatch
tests only the key, so the mapping is iterated (over its keys) and each key
is deferred as a nested section; rendering then fails with a `TypeError`
when the deferred string is subscripted.  The same payload under a
non-special key goes through the generic mapping branch and renders
fine. -/
theorem descriptors_mapping_not_generic :
    vstr pystr0 table0 10 descMapDoc 0 = Except.error PyErr.typeError ∧
    renderOk (vstr pystr0 table0 10 plainMapDoc 0) = true := by
  exact ⟨rfl, rfl⟩

/-- Claim C8, amended: the `descriptors` special case fires on the key
alone, for every value shape.  In particular for a mapping-shaped value the
loop body defers one pseudo-document per *key* of the mapping (Python
iteration over a dict yields its keys) and emits nothing, rather than
falling through to the generic mapping branch. -/
theorem descriptors_branch_keys_only (pystr : PVal → String)
    (table : List (String × PVal) → String) (fuel nw vw : Nat)
    (ret : String) (docs : List (String × PVal))
    (entries : List (String × PVal)) :
    vstrProcessItem pystr table fuel nw vw (ret, docs)
        (("descriptors"), PVal.dict entries)
      = Except.ok (ret, docs ++ entries.map (fun p => (("descriptors"), PVal.str p.1))) := by
  simp [vstrProcessItem, pyIter]

/-- Claim C9: `pretty_print_time` on a value that does not parse as a float
— any mapping, list or `None` (for which `float()` raises `TypeError`), or
a string rejected by the float grammar (`ValueError`) — returns the input
unchanged; the exception is caught inside and never escapes. -/
theorem pretty_print_time_passthrough {α : Type} (parseNumStr : String → Option α)
    (ofInt : Int → α) (render : α → String) :
    (∀ entries, pretty_print_time parseNumStr ofInt render (PVal.dict entries)
        = PVal.dict entries) ∧
    (∀ entries, pretty_print_time parseNumStr ofInt render (PVal.doc entries)
        = PVal.doc entries) ∧
    (∀ elems, pretty_print_time parseNumStr ofInt render (PVal.list elems)
        = PVal.list elems) ∧
    pretty_print_time parseNumStr ofInt render PVal.pyNone = PVal.pyNone ∧
    (∀ s, parseNumStr s = Option.none →
      pretty_print_time parseNumStr ofInt render (PVal.str s) = PVal.str s) := by
  refine ⟨fun _ => rfl, fun _ => rfl, fun _ => rfl, rfl, ?_⟩
  intro s hs
  simp [pretty_print_time, floatArg, hs]

/-- Concrete run of `pretty_print_time_passthrough`: the tests' non-numeric
timestamp string and the mapping wrapping it both pass through
unchanged. -/
theorem pretty_print_time_passthrough_witness :
    pretty_print_time (fun (_ : String) => (Option.none : Option Int)) (fun n => n)
        (fun _ => "") (PVal.str "20200124-185311") = PVal.str "20200124-185311" ∧
    pretty_print_time (fun (_ : String) => (Option.none : Option Int)) (fun n => n)
        (fun _ => "") (PVal.dict [(("time"), PVal.str "20200124-185311")])
      = PVal.dict [(("time"), PVal.str "20200124-185311")] :=
  ⟨(pretty_print_time_passthrough (fun _ => Option.none) (fun n => n) (fun _ => "")).2.2.2.2
      ("20200124-185311") rfl,
   (pretty_print_time_passthrough (fun _ => Option.none) (fun n => n) (fun _ => "")).1
      [(("time"), PVal.str "20200124-185311")]⟩

/-- Concrete run of `name_field_hidden` on the animal document. -/
theorem name_field_hidden_witness :
    ("_name") ∉ animalDoc.keys ∧
    (∀ v, (("_name"), v) ∉ animalDoc.items) ∧
    animalDoc.len = animalDoc.items.length ∧
    animalDoc.values = animalDoc.items.map Prod.snd :=
  name_field_hidden animalDoc
